import Mathlib

/-!
Shallow embedding of src/quinn-proto/src/cid_generator.rs.

Connection identifiers are modelled as lists of bytes (`List Nat`); the
cryptographically secure random source is modelled as an explicit byte
stream `rng : Nat → Nat` passed to the generation functions; operations
that can panic in Rust return `Option`, with `none` standing for a panic.
-/

namespace Quinn

/-- Modelled from the spec: the protocol-defined upper bound on identifier
length (spec section 3: "length 0..=MAX_ID_LEN (protocol-defined upper
bound, e.g. 20 bytes)").  The constant `MAX_CID_SIZE` is imported by
cid_generator.rs from the crate root, which is not part of the sources. -/
def MAX_CID_SIZE : Nat := 20

/-- Source constant: `const NONCE_LEN: usize = 3;` -/
def NONCE_LEN : Nat := 3

/-- Source constant: `const SIGNATURE_LEN: usize = 5;` -/
def SIGNATURE_LEN : Nat := 5

/-- Source constant: `const MAX_SIGNATURE_LEN: usize = 128;` -/
def MAX_SIGNATURE_LEN : Nat := 128

/-- Modelled from the spec: the keyed-signing capability (the trait
`crypto::HmacKey`, defined outside the given sources) "signs a byte input
and reports its output signature length".  `sign data` is the content the
key writes into an output buffer of length `signature_len`; the signing
operation is deterministic, as the spec assumes. -/
structure HmacKey where
  signature_len : Nat
  sign : List Nat → List Nat
  sign_len_eq : ∀ data, (sign data).length = signature_len

/-- Source: `pub struct InvalidCid;` — the error returned by `validate`. -/
structure InvalidCid where
  deriving DecidableEq

/-- Source: the default `validate` of trait `ConnectionIdGenerator`
(lines 29–31): `Ok(())` for every input. -/
def ConnectionIdGenerator.default_validate (_cid : List Nat) :
    Except InvalidCid Unit :=
  Except.ok ()

/-- Source: `pub struct RandomConnectionIdGenerator { cid_len: usize,
lifetime: Option<Duration> }`.  Durations are modelled as `Nat`. -/
structure RandomConnectionIdGenerator where
  cid_len : Nat
  lifetime : Option Nat

/-- Source: `RandomConnectionIdGenerator::new` (lines 61–67).  The bound
`cid_len <= MAX_CID_SIZE` is checked only by a `debug_assert!`, which is
compiled out in release builds, so the model is total. -/
def RandomConnectionIdGenerator.new (cid_len : Nat) :
    RandomConnectionIdGenerator :=
  { cid_len := cid_len, lifetime := none }

/-- Source: `RandomConnectionIdGenerator::generate_cid` (lines 77–82):
a `MAX_CID_SIZE`-byte zero buffer whose first `cid_len` bytes are filled
from the random source, returned as `bytes_arr[..cid_len]`.  The slice
panics (`none`) when `cid_len > MAX_CID_SIZE`. -/
def RandomConnectionIdGenerator.generate_cid
    (g : RandomConnectionIdGenerator) (rng : Nat → Nat) :
    Option (List Nat) :=
  if g.cid_len ≤ MAX_CID_SIZE then
    some ((List.range g.cid_len).map rng)
  else
    none

/-- Source: `RandomConnectionIdGenerator` does not override `validate`,
so it uses the trait default (lines 76–92 contain no `validate`). -/
def RandomConnectionIdGenerator.validate (_g : RandomConnectionIdGenerator)
    (cid : List Nat) : Except InvalidCid Unit :=
  ConnectionIdGenerator.default_validate cid

/-- Source: `pub struct KeyedConnectionIdGenerator { key: Arc<dyn
crypto::HmacKey>, lifetime: Option<Duration> }`. -/
structure KeyedConnectionIdGenerator where
  key : HmacKey
  lifetime : Option Nat

/-- Source: `KeyedConnectionIdGenerator::from_key` (lines 113–122):
`assert!(key.signature_len() < MAX_SIGNATURE_LEN)`; a failed assert
aborts construction (`none`). -/
def KeyedConnectionIdGenerator.from_key (key : HmacKey) :
    Option KeyedConnectionIdGenerator :=
  if key.signature_len < MAX_SIGNATURE_LEN then
    some { key := key, lifetime := none }
  else
    none

/-- Source: `KeyedConnectionIdGenerator::cid_len` (lines 148–150). -/
def KeyedConnectionIdGenerator.cid_len (_g : KeyedConnectionIdGenerator) :
    Nat :=
  NONCE_LEN + SIGNATURE_LEN

/-- Source: `KeyedConnectionIdGenerator::generate_cid` (lines 139–146):
`bytes_arr = [0; NONCE_LEN + MAX_SIGNATURE_LEN]`; the first `NONCE_LEN`
bytes are random; the key signs the nonce into the next
`signature_len` bytes (the rest of the signature region stays zero);
the identifier is `bytes_arr[..cid_len()]`.  Slicing the signature
region to `signature_len` panics (`none`) when
`signature_len > MAX_SIGNATURE_LEN`. -/
def KeyedConnectionIdGenerator.generate_cid
    (g : KeyedConnectionIdGenerator) (rng : Nat → Nat) :
    Option (List Nat) :=
  if g.key.signature_len ≤ MAX_SIGNATURE_LEN then
    some (((List.range NONCE_LEN).map rng ++
        (g.key.sign ((List.range NONCE_LEN).map rng) ++
          List.replicate (MAX_SIGNATURE_LEN - g.key.signature_len) 0)).take
      (NONCE_LEN + SIGNATURE_LEN))
  else
    none

/-- Source: `KeyedConnectionIdGenerator::validate` (lines 156–164):
split the cid at `NONCE_LEN` (panics, `none`, when the cid is shorter
than `NONCE_LEN`); recompute the signature of the nonce into a
`MAX_SIGNATURE_LEN`-byte zero buffer (slicing it to `signature_len`
panics when `signature_len > MAX_SIGNATURE_LEN`); accept iff the first
`SIGNATURE_LEN` bytes of that buffer equal the remainder of the cid. -/
def KeyedConnectionIdGenerator.validate (g : KeyedConnectionIdGenerator)
    (cid : List Nat) : Option (Except InvalidCid Unit) :=
  if NONCE_LEN ≤ cid.length ∧ g.key.signature_len ≤ MAX_SIGNATURE_LEN then
    if ((g.key.sign (cid.take NONCE_LEN) ++
          List.replicate (MAX_SIGNATURE_LEN - g.key.signature_len) 0).take
        SIGNATURE_LEN) = cid.drop NONCE_LEN then
      some (Except.ok ())
    else
      some (Except.error ⟨⟩)
  else
    none

/-! Helper lemmas shared by the claim theorems. -/

theorem from_key_eq_some {key : HmacKey} {g : KeyedConnectionIdGenerator}
    (h : KeyedConnectionIdGenerator.from_key key = some g) :
    g = ⟨key, none⟩ ∧ key.signature_len < MAX_SIGNATURE_LEN := by
  unfold KeyedConnectionIdGenerator.from_key at h
  split at h
  · exact ⟨(Option.some.inj h).symm, by assumption⟩
  · exact absurd h (by simp)

theorem generate_cid_eq (g : KeyedConnectionIdGenerator) (rng : Nat → Nat)
    (h : g.key.signature_len ≤ MAX_SIGNATURE_LEN) :
    g.generate_cid rng = some ((List.range NONCE_LEN).map rng ++
      (g.key.sign ((List.range NONCE_LEN).map rng) ++
        List.replicate (MAX_SIGNATURE_LEN - g.key.signature_len) 0).take
        SIGNATURE_LEN) := by
  unfold KeyedConnectionIdGenerator.generate_cid
  rw [if_pos h]
  rfl

theorem padded_sig_length (key : HmacKey) (data : List Nat)
    (h : key.signature_len ≤ MAX_SIGNATURE_LEN) :
    (key.sign data ++
      List.replicate (MAX_SIGNATURE_LEN - key.signature_len) 0).length =
      MAX_SIGNATURE_LEN := by
  simp [key.sign_len_eq]
  omega

theorem padded_sig_take_eq (key : HmacKey) (data : List Nat)
    (h : SIGNATURE_LEN ≤ key.signature_len) :
    (key.sign data ++
      List.replicate (MAX_SIGNATURE_LEN - key.signature_len) 0).take
      SIGNATURE_LEN = (key.sign data).take SIGNATURE_LEN := by
  have h0 : SIGNATURE_LEN - (key.sign data).length = 0 := by
    rw [key.sign_len_eq]; omega
  rw [List.take_append_eq_append_take, h0]
  simp

/-! Theorems for the claims. -/

/-- C1: for every keyed generator obtained from a key, every identifier it
produces via generate_cid is accepted by validate on the same generator:
validate returns Ok(()). -/
theorem keyed_generate_validate_roundtrip (key : HmacKey) (rng : Nat → Nat)
    (g : KeyedConnectionIdGenerator) (cid : List Nat)
    (hg : KeyedConnectionIdGenerator.from_key key = some g)
    (hc : g.generate_cid rng = some cid) :
    g.validate cid = some (Except.ok ()) := by
  obtain ⟨hgdef, hlt⟩ := from_key_eq_some hg
  subst hgdef
  rw [generate_cid_eq _ rng (le_of_lt hlt)] at hc
  set nonce := (List.range NONCE_LEN).map rng with hnonce
  set tail := (key.sign nonce ++
    List.replicate (MAX_SIGNATURE_LEN - key.signature_len) 0).take
    SIGNATURE_LEN with htail
  have hcid : cid = nonce ++ tail := (Option.some.inj hc).symm
  have hn : nonce.length = NONCE_LEN := by simp [hnonce]
  unfold KeyedConnectionIdGenerator.validate
  rw [if_pos ⟨by rw [hcid]; simp [hn], le_of_lt hlt⟩]
  rw [hcid, List.take_left' hn, List.drop_left' hn, if_pos rfl]

/-- C2 (amended): for every keyed generator obtained from a key whose
signature length is at least SIGNATURE_LEN, and every identifier of exactly
NONCE_LEN + SIGNATURE_LEN bytes, validate returns Ok(()) if the first
SIGNATURE_LEN bytes of the recomputed full signature of the identifier's
leading NONCE_LEN bytes equal the identifier's trailing SIGNATURE_LEN
bytes, and Err(InvalidCid) otherwise. -/
theorem keyed_validate_iff_sig_match (key : HmacKey)
    (g : KeyedConnectionIdGenerator) (cid : List Nat)
    (hg : KeyedConnectionIdGenerator.from_key key = some g)
    (hsl : SIGNATURE_LEN ≤ key.signature_len)
    (hlen : cid.length = NONCE_LEN + SIGNATURE_LEN) :
    g.validate cid = some
      (if (key.sign (cid.take NONCE_LEN)).take SIGNATURE_LEN =
          cid.drop NONCE_LEN then
        Except.ok ()
      else
        Except.error ⟨⟩) := by
  obtain ⟨hgdef, hlt⟩ := from_key_eq_some hg
  subst hgdef
  unfold KeyedConnectionIdGenerator.validate
  rw [if_pos ⟨by omega, le_of_lt hlt⟩,
    padded_sig_take_eq key (cid.take NONCE_LEN) hsl]
  split
  · rfl
  · rfl

/-- C2 counterexample: a key whose signature length is 0 passes
construction, and validate accepts an 8-byte identifier whose trailing 5
bytes are the zero padding of the expected-signature buffer, not the first
5 bytes of the (empty) full signature — contradicting the claim, which
would demand rejection here. -/
def key0 : HmacKey := ⟨0, fun _ => [], fun _ => rfl⟩

def gen0 : KeyedConnectionIdGenerator := ⟨key0, none⟩

theorem keyed_validate_sig_match_cex :
    KeyedConnectionIdGenerator.from_key key0 = some gen0 ∧
    gen0.validate [0, 0, 0, 0, 0, 0, 0, 0] = some (Except.ok ()) ∧
    (key0.sign (([0, 0, 0, 0, 0, 0, 0, 0] : List Nat).take NONCE_LEN)).take
      SIGNATURE_LEN ≠ ([0, 0, 0, 0, 0, 0, 0, 0] : List Nat).drop NONCE_LEN :=
  ⟨rfl, rfl, by decide⟩

/-- C3 (amended): construction from a key fails if and only if the key's
reported signature length is at least the ceiling MAX_SIGNATURE_LEN = 128
(the assert is strict: it succeeds exactly when the length is strictly
below the ceiling); the failure happens in from_key itself, before any
identifier is generated. -/
theorem from_key_succeeds_iff (key : HmacKey) :
    (KeyedConnectionIdGenerator.from_key key).isSome ↔
      key.signature_len < MAX_SIGNATURE_LEN := by
  unfold KeyedConnectionIdGenerator.from_key
  split
  · rename_i h
    simpa using h
  · rename_i h
    simpa using h

/-- C3 counterexample: a key reporting signature length exactly 128 does
not exceed the ceiling, yet construction fails — contradicting the claim
that construction succeeds whenever the length does not exceed the
ceiling. -/
def key128 : HmacKey := ⟨128, fun _ => List.replicate 128 0, fun _ => by simp⟩

theorem from_key_ceiling_cex :
    KeyedConnectionIdGenerator.from_key key128 = none ∧
    key128.signature_len ≤ MAX_SIGNATURE_LEN :=
  ⟨rfl, by decide⟩

/-- C4 (amended): for a keyed generator obtained from a key whose signature
length is at least SIGNATURE_LEN, every identifier produced by generate_cid
is the NONCE_LEN-byte nonce drawn from the random source followed by
exactly the first SIGNATURE_LEN bytes of the full signature of that nonce
under the held key. -/
theorem keyed_generate_layout (key : HmacKey) (rng : Nat → Nat)
    (g : KeyedConnectionIdGenerator) (cid : List Nat)
    (hg : KeyedConnectionIdGenerator.from_key key = some g)
    (hsl : SIGNATURE_LEN ≤ key.signature_len)
    (hc : g.generate_cid rng = some cid) :
    cid = (List.range NONCE_LEN).map rng ++
        (key.sign ((List.range NONCE_LEN).map rng)).take SIGNATURE_LEN ∧
      ((List.range NONCE_LEN).map rng).length = NONCE_LEN := by
  obtain ⟨hgdef, hlt⟩ := from_key_eq_some hg
  subst hgdef
  rw [generate_cid_eq _ rng (le_of_lt hlt)] at hc
  refine ⟨?_, by simp⟩
  rw [padded_sig_take_eq key _ hsl] at hc
  exact (Option.some.inj hc).symm

/-- C4 counterexample: with a key whose signature length is 0, the produced
identifier is the nonce followed by five zero bytes of buffer padding,
which is not the nonce followed by the first 5 bytes of the (empty) full
signature. -/
def rng1 : Nat → Nat := fun _ => 1

theorem keyed_generate_layout_cex :
    KeyedConnectionIdGenerator.from_key key0 = some gen0 ∧
    gen0.generate_cid rng1 = some [1, 1, 1, 0, 0, 0, 0, 0] ∧
    ([1, 1, 1, 0, 0, 0, 0, 0] : List Nat) ≠
      (List.range NONCE_LEN).map rng1 ++
        (key0.sign ((List.range NONCE_LEN).map rng1)).take SIGNATURE_LEN :=
  ⟨rfl, by decide, by decide⟩

/-- C5: every identifier returned by generate_cid has exactly the
generator's advertised length: the random generator with configured length
L ≤ MAX_CID_SIZE produces identifiers of exactly L bytes, and a keyed
generator produces identifiers of exactly NONCE_LEN + SIGNATURE_LEN = 8
bytes; in particular generate_cid never returns an identifier longer than
the advertised length. -/
theorem generate_cid_length (L : Nat) (rng : Nat → Nat) (key : HmacKey)
    (g : KeyedConnectionIdGenerator)
    (hL : L ≤ MAX_CID_SIZE)
    (hg : KeyedConnectionIdGenerator.from_key key = some g) :
    (∃ cid, (RandomConnectionIdGenerator.new L).generate_cid rng = some cid ∧
        cid.length = (RandomConnectionIdGenerator.new L).cid_len ∧
        (RandomConnectionIdGenerator.new L).cid_len = L) ∧
      (∃ cid, g.generate_cid rng = some cid ∧ cid.length = g.cid_len ∧
        g.cid_len = NONCE_LEN + SIGNATURE_LEN) := by
  constructor
  · refine ⟨(List.range L).map rng, ?_, by simp [RandomConnectionIdGenerator.new], rfl⟩
    unfold RandomConnectionIdGenerator.generate_cid
    rw [if_pos
      (show (RandomConnectionIdGenerator.new L).cid_len ≤ MAX_CID_SIZE from hL)]
    rfl
  · obtain ⟨hgdef, hlt⟩ := from_key_eq_some hg
    subst hgdef
    refine ⟨_, generate_cid_eq _ rng (le_of_lt hlt), ?_, rfl⟩
    simp [List.length_take, key.sign_len_eq, KeyedConnectionIdGenerator.cid_len,
      NONCE_LEN, SIGNATURE_LEN, MAX_SIGNATURE_LEN]
    simp [NONCE_LEN, SIGNATURE_LEN, MAX_SIGNATURE_LEN] at hlt
    omega

/-- C6: validate on a non-authenticating generator — the trait default,
which the random generator does not override — returns Ok(()) for every
input identifier, including the empty one and arbitrary byte sequences. -/
theorem default_validate_accepts (g : RandomConnectionIdGenerator)
    (cid : List Nat) :
    g.validate cid = Except.ok () ∧
      ConnectionIdGenerator.default_validate cid = Except.ok () :=
  ⟨rfl, rfl⟩

/-- C7: for a keyed generator and any input identifier with at least
NONCE_LEN + SIGNATURE_LEN bytes, validate never panics: it returns either
Ok(()) or Err(InvalidCid). -/
theorem keyed_validate_no_panic (key : HmacKey)
    (g : KeyedConnectionIdGenerator) (cid : List Nat)
    (hg : KeyedConnectionIdGenerator.from_key key = some g)
    (hlen : NONCE_LEN + SIGNATURE_LEN ≤ cid.length) :
    g.validate cid = some (Except.ok ()) ∨
      g.validate cid = some (Except.error ⟨⟩) := by
  obtain ⟨hgdef, hlt⟩ := from_key_eq_some hg
  subst hgdef
  unfold KeyedConnectionIdGenerator.validate
  rw [if_pos ⟨by omega, le_of_lt hlt⟩]
  split
  · exact Or.inl rfl
  · exact Or.inr rfl

/-- C9: for a keyed generator, an input identifier whose length is at
least NONCE_LEN but not exactly NONCE_LEN + SIGNATURE_LEN is always
rejected with Err(InvalidCid): the claimed-signature slice is everything
after the first NONCE_LEN bytes, so its length differs from SIGNATURE_LEN
and the comparison with the SIGNATURE_LEN-byte recomputed prefix fails. -/
theorem keyed_validate_rejects_bad_length (key : HmacKey)
    (g : KeyedConnectionIdGenerator) (cid : List Nat)
    (hg : KeyedConnectionIdGenerator.from_key key = some g)
    (h3 : NONCE_LEN ≤ cid.length)
    (h8 : cid.length ≠ NONCE_LEN + SIGNATURE_LEN) :
    g.validate cid = some (Except.error ⟨⟩) := by
  obtain ⟨hgdef, hlt⟩ := from_key_eq_some hg
  subst hgdef
  have hne : ¬ ((key.sign (cid.take NONCE_LEN) ++
      List.replicate (MAX_SIGNATURE_LEN - key.signature_len) 0).take
      SIGNATURE_LEN = cid.drop NONCE_LEN) := by
    intro hEq
    have hlenEq := congrArg List.length hEq
    simp [key.sign_len_eq, NONCE_LEN, SIGNATURE_LEN, MAX_SIGNATURE_LEN]
      at hlenEq
    simp [NONCE_LEN, SIGNATURE_LEN] at h3 h8
    simp [MAX_SIGNATURE_LEN] at hlt
    omega
  unfold KeyedConnectionIdGenerator.validate
  rw [if_pos ⟨h3, le_of_lt hlt⟩, if_neg hne]

/-- C10: the random generator's constructor does not enforce the length
bound (only a debug assertion, compiled out in release), so new always
succeeds and stores the requested length unchanged; generate_cid then
succeeds exactly when L ≤ MAX_CID_SIZE and panics (modelled as none) when
L > MAX_CID_SIZE, so L ≤ MAX_CID_SIZE is a genuine precondition. -/
theorem random_new_unchecked (L : Nat) (rng : Nat → Nat) :
    (RandomConnectionIdGenerator.new L).cid_len = L ∧
      (((RandomConnectionIdGenerator.new L).generate_cid rng).isSome ↔
        L ≤ MAX_CID_SIZE) := by
  refine ⟨rfl, ?_⟩
  unfold RandomConnectionIdGenerator.generate_cid
  split
  · rename_i h
    simpa using h
  · rename_i h
    simpa using h

/-! Concrete data for the witnesses. -/

/-- Concrete witness key: signature length 5, deterministic signing. -/
def keyW : HmacKey := ⟨5, fun data => [data.length, 2, 3, 4, 5], fun _ => rfl⟩

def genW : KeyedConnectionIdGenerator := ⟨keyW, none⟩

def rngW : Nat → Nat := fun _ => 7

theorem keyed_generate_validate_roundtrip_witness :
    genW.validate [7, 7, 7, 3, 2, 3, 4, 5] = some (Except.ok ()) :=
  keyed_generate_validate_roundtrip keyW rngW genW [7, 7, 7, 3, 2, 3, 4, 5]
    rfl rfl

theorem keyed_validate_iff_sig_match_witness :
    genW.validate [9, 9, 9, 1, 1, 1, 1, 1] = some
      (if (keyW.sign (([9, 9, 9, 1, 1, 1, 1, 1] : List Nat).take
            NONCE_LEN)).take SIGNATURE_LEN =
          ([9, 9, 9, 1, 1, 1, 1, 1] : List Nat).drop NONCE_LEN then
        Except.ok ()
      else
        Except.error ⟨⟩) :=
  keyed_validate_iff_sig_match keyW genW [9, 9, 9, 1, 1, 1, 1, 1] rfl
    (by decide) (by decide)

theorem keyed_generate_layout_witness :
    ([7, 7, 7, 3, 2, 3, 4, 5] : List Nat) = (List.range NONCE_LEN).map rngW ++
        (keyW.sign ((List.range NONCE_LEN).map rngW)).take SIGNATURE_LEN ∧
      ((List.range NONCE_LEN).map rngW).length = NONCE_LEN :=
  keyed_generate_layout keyW rngW genW [7, 7, 7, 3, 2, 3, 4, 5] rfl
    (by decide) rfl

theorem generate_cid_length_witness :
    (∃ cid, (RandomConnectionIdGenerator.new 4).generate_cid rngW = some cid ∧
        cid.length = (RandomConnectionIdGenerator.new 4).cid_len ∧
        (RandomConnectionIdGenerator.new 4).cid_len = 4) ∧
      (∃ cid, genW.generate_cid rngW = some cid ∧ cid.length = genW.cid_len ∧
        genW.cid_len = NONCE_LEN + SIGNATURE_LEN) :=
  generate_cid_length 4 rngW keyW genW (by decide) rfl

theorem keyed_validate_no_panic_witness :
    genW.validate [1, 2, 3, 4, 5, 6, 7, 8, 9] = some (Except.ok ()) ∨
      genW.validate [1, 2, 3, 4, 5, 6, 7, 8, 9] = some (Except.error ⟨⟩) :=
  keyed_validate_no_panic keyW genW [1, 2, 3, 4, 5, 6, 7, 8, 9] rfl
    (by decide)

theorem keyed_validate_rejects_bad_length_witness :
    genW.validate [1, 2, 3, 4] = some (Except.error ⟨⟩) :=
  keyed_validate_rejects_bad_length keyW genW [1, 2, 3, 4] rfl (by decide)
    (by decide)

end Quinn
